import Mathlib

/-!
Verification of the duplicate-detection transform of this repository
(file src/app.py) against its natural-language specification.

The embedding models a pandas DataFrame as an ordered schema (a list of
column names) plus an ordered list of rows, each row a list of Scalar
values aligned with the schema.  The core function compute_duplicates
(src/app.py lines 104-135) and the caller-side helpers
build_query_from_input (lines 138-145) and the key validation performed
by the index view (lines 195-226) are translated below.

Modelling notes on library semantics of the source (pandas):
- DataFrame.duplicated(subset=keys, keep=False) marks every row whose
  projection onto the key columns occurs at least twice; missing values
  (NaN / None) compare equal to each other there.
- DataFrame.sort_values(keys) sorts only by the listed key columns.
  With two or more columns pandas takes the stable lexsort_indexer path,
  so rows that tie on every key column keep their original relative
  order; with a single column it takes nargsort with the default
  kind quicksort, whose tie order is not guaranteed.  Missing values are
  placed last (na_position defaults to last).  We model the sort as a
  stable insertion sort on the key projection: this coincides with the
  program for multi-column key lists, while for a single key column it
  fixes one deterministic tie order among the ones the program may
  produce, so only statements insensitive to the tie order, or carrying
  a hypothesis of at least two key columns, are read off the model.
- groupby(keys) (default sort=True, dropna=True) iterates groups in
  ascending key order and drops every group whose key contains a missing
  value; cumcount() therefore leaves the rows of such dropped groups
  without an ordinal (NaN), which we model as Option.none.
- Series.nunique() defaults to dropna=True: missing values are not
  counted among the distinct values of a column.
- Scalar comparisons across distinct runtime kinds raise in pandas; the
  order below totalises them by ranking the kinds, which is only ever
  exercised on same-kind columns in the concrete witnesses.
-/

/-- A scalar cell value of the tabular data model: missing value, boolean,
integer or text. -/
inductive Scalar where
  | null
  | bool (b : Bool)
  | int (n : Int)
  | str (s : String)
deriving DecidableEq, Repr

/-- True exactly on the missing value. -/
def Scalar.isNull : Scalar → Bool
  | .null => true
  | _ => false

/-- Strict lexicographic comparison of char lists; the order Python and
pandas use on text values. -/
def charsLt : List Char → List Char → Bool
  | [], [] => false
  | [], _ :: _ => true
  | _ :: _, [] => false
  | c :: cs, d :: ds => decide (c < d) || (decide (c = d) && charsLt cs ds)

/-- Rank of the scalar kinds, used to totalise comparisons across kinds;
the missing value ranks last, mirroring na_position of sort_values. -/
def Scalar.rank : Scalar → Nat
  | .bool _ => 0
  | .int _ => 1
  | .str _ => 2
  | .null => 3

/-- Strict order on scalars: by value inside one kind, by kind rank across
kinds, with the missing value greatest. -/
def Scalar.ltB : Scalar → Scalar → Bool
  | .bool x, .bool y => !x && y
  | .int x, .int y => decide (x < y)
  | .str x, .str y => charsLt x.data y.data
  | a, b => decide (a.rank < b.rank)

/-- Strict lexicographic order on key tuples (lists of scalars). -/
def keyLt : List Scalar → List Scalar → Bool
  | [], [] => false
  | [], _ :: _ => true
  | _ :: _, [] => false
  | a :: as, b :: bs => Scalar.ltB a b || (decide (a = b) && keyLt as bs)

/-- Non-strict key order used to model sort_values on the key columns. -/
def keyLe (a b : List Scalar) : Bool := !(keyLt b a)

/-- A materialized pandas DataFrame: an ordered schema of column names and
an ordered list of rows, each row aligned with the schema. -/
structure DataFrame where
  cols : List String
  rows : List (List Scalar)
deriving DecidableEq, Repr

/-- Value of column c in a row (DataFrame column access). -/
def colVal (cols : List String) (c : String) (row : List Scalar) : Scalar :=
  match List.findIdx? (fun x => decide (x = c)) cols with
  | some i => row.getD i Scalar.null
  | none => Scalar.null

/-- Projection of a row onto the key columns, in keys order. -/
def projRow (cols keys : List String) (row : List Scalar) : List Scalar :=
  keys.map fun c => colVal cols c row

/-- A key tuple contains a missing value. -/
def hasNullKey (k : List Scalar) : Bool := k.any Scalar.isNull

/-- A row of the grouper output: the row together with the ordem column of
src/app.py line 115.  Rows of a group whose key holds a missing value get
no ordinal (pandas groupby dropna), modelled as none. -/
structure AnnotatedRow where
  row : List Scalar
  ordem : Option Nat
deriving DecidableEq, Repr

/-- One entry of the difference summary built in src/app.py lines 122-133. -/
structure DiffRecord where
  key : List Scalar
  duplicate_count : Nat
  difference_columns : List String
deriving DecidableEq, Repr

/-- Rows kept by duplicated(subset=keys, keep=False) at lines 108-109: the
key projection of the row occurs at least twice in the table; missing key
values compare equal to each other. -/
def dupFilter (df : DataFrame) (keys : List String) : List (List Scalar) :=
  df.rows.filter fun r =>
    decide (2 ≤ df.rows.countP fun r2 =>
      decide (projRow df.cols keys r2 = projRow df.cols keys r))

/-- Ascending sort of the duplicate rows by the key projection only
(line 114, sort_values over the key columns; missing values ranked
last).  The insertion sort is stable, which matches pandas exactly when
the key list has at least two columns (lexsort); for a single key column
pandas uses an unstable quicksort, so the tie order modelled here is
then merely one admissible outcome and no theorem relies on it. -/
def sortDup (df : DataFrame) (keys : List String) : List (List Scalar) :=
  List.insertionSort
    (fun r₁ r₂ => keyLe (projRow df.cols keys r₁) (projRow df.cols keys r₂) = true)
    (dupFilter df keys)

/-- Ordinal assignment of line 115: groupby(keys).cumcount() + 1 over the
sorted rows.  The ordinal of a row is one plus the number of earlier rows
of the same group; rows whose key holds a missing value belong to no
group under dropna=True and receive no ordinal. -/
def annotateAux (proj : List Scalar → List Scalar) :
    List (List Scalar) → List (List Scalar) → List AnnotatedRow
  | _, [] => []
  | seen, r :: rest =>
    { row := r,
      ordem :=
        if hasNullKey (proj r) then none
        else some (seen.countP (fun r2 => decide (proj r2 = proj r)) + 1) } ::
    annotateAux proj (seen ++ [r]) rest

/-- The annotated duplicate rows returned by compute_duplicates (the
grouper output, lines 108-117; the reordering of columns at lines 116-117
is presentational and not modelled). -/
def grouperRows (df : DataFrame) (keys : List String) : List AnnotatedRow :=
  annotateAux (projRow df.cols keys) [] (sortDup df keys)

/-- First-appearance deduplication, keeping the first occurrence of every
element. -/
def firstDedupAux : List (List Scalar) → List (List Scalar) → List (List Scalar)
  | _, [] => []
  | seen, k :: rest =>
    if k ∈ seen then firstDedupAux seen rest
    else k :: firstDedupAux (k :: seen) rest

/-- The distinct group keys iterated by groupby(keys) at line 122: the
sorted duplicate rows are grouped in ascending key order, which on the
key-sorted row list is exactly first-appearance order; groups whose key
holds a missing value are dropped (groupby dropna=True). -/
def groupKeyList (df : DataFrame) (keys : List String) : List (List Scalar) :=
  firstDedupAux []
    (((sortDup df keys).map (projRow df.cols keys)).filter fun k => !hasNullKey k)

/-- Series.nunique with its default dropna=True (line 126): the number of
distinct non-missing values. -/
def nunique (vals : List Scalar) : Nat :=
  ((vals.filter fun v => !v.isNull).dedup).length

/-- Non-key columns in schema order (line 120). -/
def nonKeyColumns (df : DataFrame) (keys : List String) : List String :=
  df.cols.filter fun c => decide (c ∉ keys)

/-- The member rows of the group of key k: the rows of the sorted
duplicate table whose key projection equals k (the group objects pandas
iterates at line 122). -/
def groupRows (df : DataFrame) (keys : List String) (k : List Scalar) :
    List (List Scalar) :=
  (sortDup df keys).filter fun r => decide (projRow df.cols keys r = k)

/-- The summary entry built for one group at lines 122-133. -/
def diffRecordFor (df : DataFrame) (keys : List String) (k : List Scalar) :
    DiffRecord :=
  { key := k,
    duplicate_count := (groupRows df keys k).length,
    difference_columns :=
      (nonKeyColumns df keys).filter fun c =>
        decide (1 < nunique ((groupRows df keys k).map (colVal df.cols c))) }

/-- The difference summary returned by compute_duplicates (the differ
output, lines 119-133). -/
def differSummary (df : DataFrame) (keys : List String) : List DiffRecord :=
  (groupKeyList df keys).map (diffRecordFor df keys)

/-- The transform compute_duplicates of src/app.py lines 104-135.  An empty
table returns empty outputs at once (lines 105-106).  On a non-empty table
pandas raises for an empty subset list (an unpacking ValueError inside
DataFrame.duplicated) and raises KeyError when a key name is missing from
the schema; both are modelled as error results.  When no row is duplicated
the function returns empty outputs (lines 111-112). -/
def computeDuplicates (df : DataFrame) (keys : List String) :
    Except String (List AnnotatedRow × List DiffRecord) :=
  if df.rows.isEmpty then .ok ([], [])
  else if keys.isEmpty then .error "ValueError"
  else if !(keys.all fun k => decide (k ∈ df.cols)) then .error "KeyError"
  else if (dupFilter df keys).isEmpty then .ok ([], [])
  else .ok (grouperRows df keys, differSummary df keys)

/-- Python str.strip character class: ASCII whitespace as used by the
queries this caller handles. -/
def pyIsSpace (c : Char) : Bool :=
  decide (c = ' ') || decide (c = '\t') || decide (c = '\n') ||
  decide (c = '\r') || decide (c = '\x0b') || decide (c = '\x0c')

/-- Python str.strip on a char list: drop whitespace from both ends. -/
def pyStrip (s : List Char) : List Char :=
  ((s.dropWhile pyIsSpace).reverse.dropWhile pyIsSpace).reverse

/-- Does the char list s start with p (Python str.startswith). -/
def startsWithB : List Char → List Char → Bool
  | _, [] => true
  | [], _ :: _ => false
  | c :: cs, d :: ds => decide (c = d) && startsWithB cs ds

/-- build_query_from_input of src/app.py lines 138-145: an empty trimmed
input raises ValueError; a trimmed input whose lowercase form starts with
select or with is returned verbatim; anything else is treated as a table
name.  Lowercasing is modelled on ASCII letters, which covers the two
prefix checks. -/
def buildQueryFromInput (source : List Char) : Except String (List Char) :=
  let cleaned := pyStrip source
  if cleaned.isEmpty then
    .error "Informe uma tabela ou uma consulta SQL válida."
  else
    let lowered := cleaned.map Char.toLower
    if startsWithB lowered "select".data || startsWithB lowered "with".data then
      .ok cleaned
    else
      .ok ("SELECT * FROM ".data ++ cleaned)

/-- Outcome of the key validation the index view performs before invoking
compute_duplicates (src/app.py lines 195-226). -/
inductive KeyCheck where
  | emptySelection
  | missingColumns (missing : List String)
  | accepted
deriving DecidableEq, Repr

/-- Key validation of the index view: an empty selection is reported at
lines 195-209, names absent from the executed query result at lines
211-226; only an accepted selection reaches compute_duplicates. -/
def validateSelectedKeys (selectedKeys cols : List String) : KeyCheck :=
  if selectedKeys.isEmpty then .emptySelection
  else
    let missing := selectedKeys.filter fun k => decide (k ∉ cols)
    if !missing.isEmpty then .missingColumns missing
    else .accepted

/-- Concrete flight schema of the specification scenario in section 8. -/
def flightCols : List String :=
  ["airline", "flight_number", "origin", "destination", "departure_time", "status"]

/-- The five key columns of the specification scenario. -/
def flightKeys : List String :=
  ["airline", "flight_number", "origin", "destination", "departure_time"]

/-- First Safra Air row of the scenario, status No Horário (input order first). -/
def rNoHorario : List Scalar :=
  [.str "Safra Air", .str "202", .str "GRU", .str "GIG", .str "T0", .str "No Horário"]

/-- Second Safra Air row of the scenario, status Atrasado. -/
def rAtrasado : List Scalar :=
  [.str "Safra Air", .str "202", .str "GRU", .str "GIG", .str "T0", .str "Atrasado"]

/-- The singleton Aurora row of the scenario. -/
def rAurora : List Scalar :=
  [.str "Aurora", .str "450", .str "BSB", .str "REC", .str "T2", .str "Embarque"]

/-- The scenario table of section 8 of the specification, rows in the
order the specification lists them. -/
def scenarioDf : DataFrame :=
  { cols := flightCols, rows := [rNoHorario, rAtrasado, rAurora] }

/-- A two-row table whose single key column is null in both rows; both
rows are duplicates of each other under the null-equals-null convention. -/
def nullKeyDf : DataFrame :=
  { cols := ["k", "v"], rows := [[.null, .str "a"], [.null, .str "a"]] }

/-- A two-row duplicate group whose non-key column v holds one null and
one non-null value. -/
def nullDiffDf : DataFrame :=
  { cols := ["k", "v"], rows := [[.str "A", .null], [.str "A", .str "x"]] }

/-- Distinct-value count of the specification reading of claim C3: nulls
are counted as one ordinary value (two nulls equal each other).  Modelled
from the spec, for comparison against the nunique of the code. -/
def specDistinctCount (vals : List Scalar) : Nat := vals.dedup.length

/-- Concrete query input of the witness: a bare table name padded with
whitespace. -/
def queryInputFlights : List Char := "  flights ".data

/-- Removal of one occurrence of a row from a list of rows, used to state
that some other input row shares a key projection. -/
def eraseOne (l : List (List Scalar)) (r : List Scalar) : List (List Scalar) :=
  match l with
  | [] => []
  | x :: xs => if x = r then xs else x :: eraseOne xs r

/-- First row of the permutation counterexample table: two key columns k1
and k2 and a status column, status No Horário. -/
def rPermNH : List Scalar := [.str "X", .str "1", .str "No Horário"]

/-- Second row of the permutation counterexample table, status Atrasado. -/
def rPermAt : List Scalar := [.str "X", .str "1", .str "Atrasado"]

/-- Two-row table holding one duplicate group; rows in one order. -/
def permDfA : DataFrame :=
  { cols := ["k1", "k2", "status"], rows := [rPermNH, rPermAt] }

/-- The same two-row table with its rows permuted. -/
def permDfB : DataFrame :=
  { cols := ["k1", "k2", "status"], rows := [rPermAt, rPermNH] }

/-- The key tuple of the Safra Air duplicate group of the scenario. -/
def safraKey : List Scalar :=
  [.str "Safra Air", .str "202", .str "GRU", .str "GIG", .str "T0"]

theorem charsLt_irrefl : ∀ s, charsLt s s = false
  | [] => rfl
  | c :: cs => by
      simp [charsLt, charsLt_irrefl cs, lt_self_iff_false]

theorem charsLt_trans : ∀ a b c, charsLt a b = true → charsLt b c = true →
    charsLt a c = true := by
  intro a
  induction a with
  | nil =>
    intro b c hab hbc
    cases b <;> cases c <;> simp_all [charsLt]
  | cons x xs ih =>
    intro b c hab hbc
    cases b with
    | nil => simp [charsLt] at hab
    | cons y ys =>
      cases c with
      | nil => simp [charsLt] at hbc
      | cons z zs =>
        simp only [charsLt, Bool.or_eq_true, Bool.and_eq_true,
          decide_eq_true_eq] at hab hbc ⊢
        rcases hab with h1 | ⟨rfl, h1⟩
        · rcases hbc with h2 | ⟨rfl, h2⟩
          · exact Or.inl (lt_trans h1 h2)
          · exact Or.inl h1
        · rcases hbc with h2 | ⟨rfl, h2⟩
          · exact Or.inl h2
          · exact Or.inr ⟨rfl, ih _ _ h1 h2⟩

theorem charsLt_trichotomy : ∀ a b, charsLt a b = true ∨ a = b ∨
    charsLt b a = true := by
  intro a
  induction a with
  | nil =>
    intro b; cases b <;> simp [charsLt]
  | cons x xs ih =>
    intro b
    cases b with
    | nil => simp [charsLt]
    | cons y ys =>
      rcases lt_trichotomy x y with h | rfl | h
      · left; simp [charsLt, h]
      · rcases ih ys with h | rfl | h
        · left; simp [charsLt, h]
        · right; left; rfl
        · right; right; simp [charsLt, h]
      · right; right; simp [charsLt, h]

theorem string_data_injective {s t : String} (h : s.data = t.data) : s = t := by
  cases s; cases t; exact congrArg String.mk h

theorem Scalar.ltB_irrefl : ∀ a, Scalar.ltB a a = false := by
  intro a
  cases a with
  | null => rfl
  | bool x => cases x <;> rfl
  | int n => simp [Scalar.ltB, lt_self_iff_false]
  | str s => simp [Scalar.ltB, charsLt_irrefl]

theorem Scalar.ltB_trans : ∀ a b c, Scalar.ltB a b = true →
    Scalar.ltB b c = true → Scalar.ltB a c = true := by
  intro a b c hab hbc
  cases a <;> cases b <;> cases c <;>
    simp only [Scalar.ltB, Scalar.rank, decide_eq_true_eq, Bool.and_eq_true,
      Bool.not_eq_true'] at hab hbc ⊢ <;>
    first
      | omega
      | exact charsLt_trans _ _ _ hab hbc
      | simp_all

theorem Scalar.ltB_trichotomy : ∀ a b, Scalar.ltB a b = true ∨ a = b ∨
    Scalar.ltB b a = true := by
  intro a b
  cases a <;> cases b <;>
    first
      | (left; simp [Scalar.ltB, Scalar.rank]; done)
      | (right; right; simp [Scalar.ltB, Scalar.rank]; done)
      | (right; left; rfl)
      | (rename_i x y; cases x <;> cases y <;> simp [Scalar.ltB]; done)
      | (rename_i m n
         simp only [Scalar.ltB, decide_eq_true_eq, Scalar.int.injEq]
         omega)
      | (rename_i s t
         rcases charsLt_trichotomy s.data t.data with h | h | h
         · exact Or.inl h
         · exact Or.inr (Or.inl (congrArg Scalar.str (string_data_injective h)))
         · exact Or.inr (Or.inr h))

theorem keyLt_irrefl : ∀ k, keyLt k k = false
  | [] => rfl
  | a :: as => by simp [keyLt, keyLt_irrefl as, Scalar.ltB_irrefl]

theorem keyLt_trans : ∀ a b c, keyLt a b = true → keyLt b c = true →
    keyLt a c = true := by
  intro a
  induction a with
  | nil =>
    intro b c hab hbc
    cases b <;> cases c <;> simp_all [keyLt]
  | cons x xs ih =>
    intro b c hab hbc
    cases b with
    | nil => simp [keyLt] at hab
    | cons y ys =>
      cases c with
      | nil => simp [keyLt] at hbc
      | cons z zs =>
        simp only [keyLt, Bool.or_eq_true, Bool.and_eq_true,
          decide_eq_true_eq] at hab hbc ⊢
        rcases hab with h1 | ⟨rfl, h1⟩
        · rcases hbc with h2 | ⟨rfl, h2⟩
          · exact Or.inl (Scalar.ltB_trans _ _ _ h1 h2)
          · exact Or.inl h1
        · rcases hbc with h2 | ⟨rfl, h2⟩
          · exact Or.inl h2
          · exact Or.inr ⟨rfl, ih _ _ h1 h2⟩

theorem keyLt_trichotomy : ∀ a b, keyLt a b = true ∨ a = b ∨
    keyLt b a = true := by
  intro a
  induction a with
  | nil =>
    intro b; cases b <;> simp [keyLt]
  | cons x xs ih =>
    intro b
    cases b with
    | nil => simp [keyLt]
    | cons y ys =>
      rcases Scalar.ltB_trichotomy x y with h | rfl | h
      · left; simp [keyLt, h]
      · rcases ih ys with h | rfl | h
        · left; simp [keyLt, h]
        · right; left; rfl
        · right; right; simp [keyLt, h]
      · right; right; simp [keyLt, h]

theorem keyLt_asymm {a b : List Scalar} (h : keyLt a b = true) :
    keyLt b a = false := by
  by_contra hc
  rw [Bool.not_eq_false] at hc
  have := keyLt_trans a b a h hc
  simp [keyLt_irrefl] at this

theorem keyLe_refl (a : List Scalar) : keyLe a a = true := by
  simp [keyLe, keyLt_irrefl]

theorem keyLe_total : ∀ a b, keyLe a b = true ∨ keyLe b a = true := by
  intro a b
  by_cases h : keyLt b a = true
  · exact Or.inr (by simp [keyLe, keyLt_asymm h])
  · exact Or.inl (by simp [keyLe, Bool.not_eq_true] at h ⊢; exact h)

theorem keyLe_trans : ∀ a b c, keyLe a b = true → keyLe b c = true →
    keyLe a c = true := by
  intro a b c hab hbc
  simp only [keyLe, Bool.not_eq_true'] at hab hbc ⊢
  by_contra hc
  rw [Bool.not_eq_false] at hc
  rcases keyLt_trichotomy c b with h1 | rfl | h1
  · rw [h1] at hbc; cases hbc
  · rw [hc] at hab; cases hab
  · have := keyLt_trans b c a h1 hc
    rw [this] at hab; cases hab

theorem keyLe_antisymm : ∀ a b, keyLe a b = true → keyLe b a = true →
    a = b := by
  intro a b hab hba
  simp only [keyLe, Bool.not_eq_true'] at hab hba
  rcases keyLt_trichotomy a b with h | h | h
  · rw [h] at hba; cases hba
  · exact h
  · rw [h] at hab; cases hab

theorem annotateAux_map_row (proj : List Scalar → List Scalar) :
    ∀ (l seen : List (List Scalar)),
      (annotateAux proj seen l).map AnnotatedRow.row = l := by
  intro l
  induction l with
  | nil => intro seen; rfl
  | cons r rest ih => intro seen; simp [annotateAux, ih]

theorem keyLe_of_proj_eq {cols keys : List String} {r₁ r₂ : List Scalar}
    (h : projRow cols keys r₁ = projRow cols keys r₂) :
    keyLe (projRow cols keys r₁) (projRow cols keys r₂) = true := by
  rw [h]; exact keyLe_refl _

theorem orderedInsert_filter_key (cols keys : List String) (k : List Scalar)
    (a : List Scalar) (l : List (List Scalar)) :
    (List.orderedInsert
        (fun r₁ r₂ => keyLe (projRow cols keys r₁) (projRow cols keys r₂) = true)
        a l).filter (fun r => decide (projRow cols keys r = k))
      = if projRow cols keys a = k then
          a :: l.filter (fun r => decide (projRow cols keys r = k))
        else l.filter (fun r => decide (projRow cols keys r = k)) := by
  induction l with
  | nil =>
    simp only [List.orderedInsert, List.filter]
    by_cases h : projRow cols keys a = k <;> simp [h]
  | cons b l ih =>
    by_cases hab : keyLe (projRow cols keys a) (projRow cols keys b) = true
    · rw [List.orderedInsert, if_pos hab]
      by_cases ha : projRow cols keys a = k <;> simp [List.filter_cons, ha]
    · rw [List.orderedInsert, if_neg hab]
      by_cases ha : projRow cols keys a = k
      · have hbk : (decide (projRow cols keys b = k)) = false := by
          simp only [decide_eq_false_iff_not]
          intro hb
          exact hab (keyLe_of_proj_eq (ha.trans hb.symm))
        simp [List.filter_cons, hbk, ih, ha]
      · simp [List.filter_cons, ih, ha]

theorem sortDup_filter_key (df : DataFrame) (keys : List String)
    (k : List Scalar) :
    (sortDup df keys).filter (fun r => decide (projRow df.cols keys r = k))
      = (dupFilter df keys).filter (fun r => decide (projRow df.cols keys r = k)) := by
  rw [sortDup]
  generalize dupFilter df keys = l
  induction l with
  | nil => rfl
  | cons a l ih =>
    rw [List.insertionSort, orderedInsert_filter_key, ih, List.filter_cons]
    by_cases ha : projRow df.cols keys a = k <;> simp [ha]

theorem dupFilter_filter_key (df : DataFrame) (keys : List String)
    (k : List Scalar)
    (hk : 2 ≤ df.rows.countP (fun r => decide (projRow df.cols keys r = k))) :
    (dupFilter df keys).filter (fun r => decide (projRow df.cols keys r = k))
      = df.rows.filter (fun r => decide (projRow df.cols keys r = k)) := by
  rw [dupFilter, List.filter_filter]
  apply List.filter_congr
  intro r _
  by_cases hr : projRow df.cols keys r = k
  · subst hr
    simp [hk]
  · simp [hr]

theorem mem_firstDedupAux (x : List Scalar) :
    ∀ (l seen : List (List Scalar)),
      x ∈ firstDedupAux seen l ↔ x ∈ l ∧ x ∉ seen := by
  intro l
  induction l with
  | nil => intro seen; simp [firstDedupAux]
  | cons k rest ih =>
    intro seen
    rw [firstDedupAux]
    by_cases hk : k ∈ seen
    · rw [if_pos hk, ih]
      constructor
      · rintro ⟨hx, hns⟩
        exact ⟨List.mem_cons_of_mem _ hx, hns⟩
      · rintro ⟨hx, hns⟩
        rcases List.mem_cons.mp hx with rfl | hx
        · exact absurd hk hns
        · exact ⟨hx, hns⟩
    · rw [if_neg hk]
      constructor
      · intro hx
        rcases List.mem_cons.mp hx with rfl | hx
        · exact ⟨List.mem_cons_self _ _, hk⟩
        · rcases (ih (k :: seen)).mp hx with ⟨h1, h2⟩
          refine ⟨List.mem_cons_of_mem _ h1, fun hs => h2 (List.mem_cons_of_mem _ hs)⟩
      · rintro ⟨hx, hns⟩
        rcases List.mem_cons.mp hx with rfl | hx
        · exact List.mem_cons_self _ _
        · by_cases hxk : x = k
          · subst hxk; exact List.mem_cons_self _ _
          · exact List.mem_cons_of_mem _ ((ih (k :: seen)).mpr
              ⟨hx, fun hs => by
                rcases List.mem_cons.mp hs with h | h
                · exact hxk h
                · exact hns h⟩)

theorem firstDedupAux_sublist :
    ∀ (l seen : List (List Scalar)), (firstDedupAux seen l).Sublist l := by
  intro l
  induction l with
  | nil => intro seen; simp [firstDedupAux]
  | cons k rest ih =>
    intro seen
    rw [firstDedupAux]
    by_cases hk : k ∈ seen
    · rw [if_pos hk]
      exact (ih seen).cons k
    · rw [if_neg hk]
      exact (ih (k :: seen)).cons₂ k

theorem firstDedupAux_nodup :
    ∀ (l seen : List (List Scalar)), (firstDedupAux seen l).Nodup := by
  intro l
  induction l with
  | nil => intro seen; simp [firstDedupAux]
  | cons k rest ih =>
    intro seen
    rw [firstDedupAux]
    by_cases hk : k ∈ seen
    · rw [if_pos hk]; exact ih seen
    · rw [if_neg hk]
      refine List.nodup_cons.mpr ⟨fun hmem => ?_, ih (k :: seen)⟩
      exact ((mem_firstDedupAux k rest (k :: seen)).mp hmem).2 (List.mem_cons_self _ _)

theorem mem_groupKeyList (df : DataFrame) (keys : List String)
    (k : List Scalar) :
    k ∈ groupKeyList df keys ↔ hasNullKey k = false ∧
      2 ≤ df.rows.countP (fun r => decide (projRow df.cols keys r = k)) := by
  rw [groupKeyList, mem_firstDedupAux]
  simp only [List.not_mem_nil, not_false_iff, and_true, List.mem_filter,
    List.mem_map, Bool.not_eq_true']
  constructor
  · rintro ⟨⟨r, hr, rfl⟩, hnull⟩
    have hr2 : r ∈ dupFilter df keys :=
      (List.perm_insertionSort _ _).mem_iff.mp hr
    rcases List.mem_filter.mp hr2 with ⟨hrows, hcount⟩
    rw [decide_eq_true_eq] at hcount
    refine ⟨by simpa using hnull, hcount⟩
  · rintro ⟨hnull, hcount⟩
    have hpos : 0 < df.rows.countP (fun r => decide (projRow df.cols keys r = k)) := by
      omega
    rw [List.countP_pos_iff] at hpos
    rcases hpos with ⟨r, hr, hrk⟩
    rw [decide_eq_true_eq] at hrk
    have hdup : r ∈ dupFilter df keys := by
      rw [dupFilter, List.mem_filter]
      refine ⟨hr, ?_⟩
      rw [decide_eq_true_eq, hrk]
      exact hcount
    refine ⟨⟨r, (List.perm_insertionSort _ _).mem_iff.mpr hdup, hrk⟩, ?_⟩
    simpa using hnull

theorem groupRows_eq_input_filter (df : DataFrame) (keys : List String)
    {k : List Scalar} (hk : k ∈ groupKeyList df keys) :
    (sortDup df keys).filter (fun r => decide (projRow df.cols keys r = k))
      = df.rows.filter (fun r => decide (projRow df.cols keys r = k)) :=
  (sortDup_filter_key df keys k).trans
    (dupFilter_filter_key df keys k ((mem_groupKeyList df keys k).mp hk).2)

theorem annotateAux_filter_ordinals (proj : List Scalar → List Scalar)
    (k : List Scalar) (hk : hasNullKey k = false) :
    ∀ (l seen : List (List Scalar)),
      ((annotateAux proj seen l).filter
          (fun a => decide (proj a.row = k))).map AnnotatedRow.ordem
        = (List.range ((l.filter (fun r => decide (proj r = k))).length)).map
            (fun i => some (seen.countP (fun r2 => decide (proj r2 = k)) + i + 1)) := by
  intro l
  induction l with
  | nil => intro seen; rfl
  | cons r rest ih =>
    intro seen
    rw [annotateAux]
    by_cases hr : proj r = k
    · rw [List.filter_cons, List.filter_cons]
      simp only [hr, decide_eq_true_eq, eq_self_iff_true, if_true, hk,
        Bool.false_eq_true, if_false, List.length_cons, List.map_cons]
      rw [List.range_succ_eq_map, List.map_cons, List.map_map]
      have hseen : (seen ++ [r]).countP (fun r2 => decide (proj r2 = k))
          = seen.countP (fun r2 => decide (proj r2 = k)) + 1 := by
        rw [List.countP_append]
        simp [hr]
      rw [ih (seen ++ [r]), hseen]
      congr 1
      apply List.map_congr_left
      intro i _
      simp only [Function.comp_apply, Option.some.injEq]
      omega
    · rw [List.filter_cons, List.filter_cons]
      simp only [hr, decide_False, Bool.false_eq_true, if_false]
      have hseen : (seen ++ [r]).countP (fun r2 => decide (proj r2 = k))
          = seen.countP (fun r2 => decide (proj r2 = k)) := by
        rw [List.countP_append]
        simp [hr]
      rw [ih (seen ++ [r]), hseen]

theorem sortDup_sorted (df : DataFrame) (keys : List String) :
    (sortDup df keys).Sorted
      (fun r₁ r₂ => keyLe (projRow df.cols keys r₁) (projRow df.cols keys r₂) = true) := by
  haveI : IsTotal (List Scalar)
      (fun r₁ r₂ => keyLe (projRow df.cols keys r₁) (projRow df.cols keys r₂) = true) :=
    ⟨fun a b => keyLe_total _ _⟩
  haveI : IsTrans (List Scalar)
      (fun r₁ r₂ => keyLe (projRow df.cols keys r₁) (projRow df.cols keys r₂) = true) :=
    ⟨fun a b c => keyLe_trans _ _ _⟩
  exact List.sorted_insertionSort _ _

theorem sortDup_map_proj_sorted (df : DataFrame) (keys : List String) :
    ((sortDup df keys).map (projRow df.cols keys)).Sorted
      (fun k₁ k₂ => keyLe k₁ k₂ = true) :=
  (sortDup_sorted df keys).map _ (fun _ _ h => h)

theorem groupKeyList_pairwise (df : DataFrame) (keys : List String) :
    (groupKeyList df keys).Pairwise (fun k₁ k₂ => keyLt k₁ k₂ = true) := by
  have hfiltered : (((sortDup df keys).map (projRow df.cols keys)).filter
      (fun k => !hasNullKey k)).Pairwise (fun k₁ k₂ => keyLe k₁ k₂ = true) :=
    (sortDup_map_proj_sorted df keys).filter _
  have hle : (groupKeyList df keys).Pairwise (fun k₁ k₂ => keyLe k₁ k₂ = true) :=
    hfiltered.sublist (firstDedupAux_sublist _ _)
  have hnd : (groupKeyList df keys).Nodup := firstDedupAux_nodup _ _
  refine (hle.and hnd).imp ?_
  rintro a b ⟨h1, h2⟩
  rcases keyLt_trichotomy a b with h | h | h
  · exact h
  · exact absurd h h2
  · rw [keyLe, h] at h1
    cases h1

theorem nunique_perm {l₁ l₂ : List Scalar} (h : l₁.Perm l₂) :
    nunique l₁ = nunique l₂ := by
  rw [nunique, nunique]
  exact ((h.filter _).dedup).length_eq

theorem dupFilter_perm (cols : List String)
    (rows₁ rows₂ : List (List Scalar)) (keys : List String)
    (h : rows₁.Perm rows₂) :
    (dupFilter ⟨cols, rows₁⟩ keys).Perm (dupFilter ⟨cols, rows₂⟩ keys) := by
  show (rows₁.filter _).Perm (rows₂.filter _)
  have hpred : (fun r => decide (2 ≤ rows₂.countP fun r2 =>
        decide (projRow cols keys r2 = projRow cols keys r)))
      = (fun r => decide (2 ≤ rows₁.countP fun r2 =>
        decide (projRow cols keys r2 = projRow cols keys r))) := by
    funext r
    rw [h.countP_eq]
  rw [hpred]
  exact h.filter _

theorem sortDup_perm (cols : List String)
    (rows₁ rows₂ : List (List Scalar)) (keys : List String)
    (h : rows₁.Perm rows₂) :
    (sortDup ⟨cols, rows₁⟩ keys).Perm (sortDup ⟨cols, rows₂⟩ keys) :=
  ((List.perm_insertionSort _ _).trans
    (dupFilter_perm cols rows₁ rows₂ keys h)).trans
    (List.perm_insertionSort _ _).symm

theorem sortDup_map_proj_eq (cols : List String)
    (rows₁ rows₂ : List (List Scalar)) (keys : List String)
    (h : rows₁.Perm rows₂) :
    (sortDup ⟨cols, rows₁⟩ keys).map (projRow cols keys)
      = (sortDup ⟨cols, rows₂⟩ keys).map (projRow cols keys) := by
  haveI : IsAntisymm (List Scalar) (fun k₁ k₂ => keyLe k₁ k₂ = true) :=
    ⟨fun a b => keyLe_antisymm a b⟩
  exact List.eq_of_perm_of_sorted
    ((sortDup_perm cols rows₁ rows₂ keys h).map _)
    (sortDup_map_proj_sorted ⟨cols, rows₁⟩ keys)
    (sortDup_map_proj_sorted ⟨cols, rows₂⟩ keys)

theorem groupRows_perm (cols : List String)
    (rows₁ rows₂ : List (List Scalar)) (keys : List String) (k : List Scalar)
    (h : rows₁.Perm rows₂) :
    (groupRows ⟨cols, rows₁⟩ keys k).Perm (groupRows ⟨cols, rows₂⟩ keys k) :=
  (sortDup_perm cols rows₁ rows₂ keys h).filter _

theorem diffRecordFor_perm (cols : List String)
    (rows₁ rows₂ : List (List Scalar)) (keys : List String) (k : List Scalar)
    (h : rows₁.Perm rows₂) :
    diffRecordFor ⟨cols, rows₁⟩ keys k = diffRecordFor ⟨cols, rows₂⟩ keys k := by
  have hg := groupRows_perm cols rows₁ rows₂ keys k h
  rw [diffRecordFor, diffRecordFor]
  congr 1
  · exact hg.length_eq
  · apply List.filter_congr
    intro c _
    rw [nunique_perm (hg.map (colVal cols c))]

theorem differSummary_perm (cols : List String)
    (rows₁ rows₂ : List (List Scalar)) (keys : List String)
    (h : rows₁.Perm rows₂) :
    differSummary ⟨cols, rows₁⟩ keys = differSummary ⟨cols, rows₂⟩ keys := by
  have hkeys : groupKeyList ⟨cols, rows₁⟩ keys = groupKeyList ⟨cols, rows₂⟩ keys := by
    rw [groupKeyList, groupKeyList]
    rw [show ((sortDup ⟨cols, rows₁⟩ keys).map (projRow cols keys))
        = ((sortDup ⟨cols, rows₂⟩ keys).map (projRow cols keys)) from
      sortDup_map_proj_eq cols rows₁ rows₂ keys h]
  rw [differSummary, differSummary, ← hkeys]
  apply List.map_congr_left
  intro k _
  exact diffRecordFor_perm cols rows₁ rows₂ keys k h

/-- C1 counterexample: on the concrete scenario of the specification the
transform assigns ordinal 1 to the No Horário row, the first of the two
tied rows in input order, because line 114 sorts only by the key columns
with a stable sort; the claim instead demanded ordinal 1 for the Atrasado
row under a full-row composite sort. -/
theorem C1_counterexample :
    computeDuplicates scenarioDf flightKeys =
      .ok ([{ row := rNoHorario, ordem := some 1 },
            { row := rAtrasado, ordem := some 2 }],
        [{ key := safraKey, duplicate_count := 2,
           difference_columns := ["status"] }]) ∧
    ({ row := rAtrasado, ordem := some 1 } : AnnotatedRow) ∉
      [({ row := rNoHorario, ordem := some 1 } : AnnotatedRow),
       { row := rAtrasado, ordem := some 2 }] :=
  ⟨by rfl, by decide⟩

/-- C1 (amended): the grouper orders the rows of each surviving group by
the key columns only, not the full row; for a key list of at least two
columns the sort is the stable lexsort, so tied rows keep their original
input order and ordinals follow it (first conjunct: restricted to any
one group, the sorted duplicate rows are exactly the duplicate rows in
their original order), while for a single key column the tie order is
not guaranteed by the program.  In the concrete five-key scenario the No
Horário row therefore receives ordinal 1 and the Atrasado row ordinal 2. -/
theorem C1_theorem :
    (∀ (df : DataFrame) (keys : List String) (k : List Scalar),
      1 < keys.length →
      (sortDup df keys).filter (fun r => decide (projRow df.cols keys r = k))
        = (dupFilter df keys).filter
            (fun r => decide (projRow df.cols keys r = k))) ∧
    computeDuplicates scenarioDf flightKeys =
      .ok ([{ row := rNoHorario, ordem := some 1 },
            { row := rAtrasado, ordem := some 2 }],
        [{ key := safraKey, duplicate_count := 2,
           difference_columns := ["status"] }]) :=
  ⟨fun df keys k _ => sortDup_filter_key df keys k, by rfl⟩

/-- C1 witness: on the five-key scenario the sorted Safra Air group is
the two duplicate rows in their original input order. -/
theorem C1_witness :
    (sortDup scenarioDf flightKeys).filter
        (fun r => decide (projRow scenarioDf.cols flightKeys r = safraKey))
      = (dupFilter scenarioDf flightKeys).filter
          (fun r => decide (projRow scenarioDf.cols flightKeys r = safraKey)) :=
  C1_theorem.1 scenarioDf flightKeys safraKey (by decide)

/-- C4 counterexample: on an empty table compute_duplicates returns empty
outputs at once for an empty key list and for a key name absent from the
schema, so the grouper itself raises no InvalidKeyError for every table;
the validation lives in the caller. -/
theorem C4_counterexample :
    computeDuplicates { cols := ["a"], rows := [] } [] = .ok ([], []) ∧
    computeDuplicates { cols := ["a"], rows := [] } ["missing"] = .ok ([], []) :=
  ⟨rfl, rfl⟩

/-- C4 (amended): key validation is performed by the caller, not the
grouper: the index view accepts a selection exactly when it is non-empty
and every selected name occurs in the result schema, reporting the
violation itself without invoking the transform; compute_duplicates
raises no error of its own on an empty table, and on a non-empty table it
fails (with a pandas error, not a dedicated InvalidKeyError) exactly when
the key list is empty or holds a name absent from the schema. -/
theorem C4_theorem :
    (∀ (selectedKeys cols : List String),
      validateSelectedKeys selectedKeys cols = KeyCheck.accepted ↔
        (selectedKeys ≠ [] ∧ ∀ k ∈ selectedKeys, k ∈ cols)) ∧
    (∀ (df : DataFrame) (keys : List String),
      (∃ p, computeDuplicates df keys = .ok p) ↔
        (df.rows = [] ∨ (keys ≠ [] ∧ ∀ k ∈ keys, k ∈ df.cols))) := by
  constructor
  · intro sk cols
    rw [validateSelectedKeys]
    split
    · rename_i h
      simp_all [List.isEmpty_iff]
    · rename_i h
      dsimp only
      split
      · rename_i h2
        rw [List.isEmpty_iff] at h
        have hne : List.filter (fun k => decide (k ∉ cols)) sk ≠ [] := by
          intro hnil
          rw [hnil] at h2
          simp at h2
        constructor
        · intro hfalse; cases hfalse
        · rintro ⟨-, hall⟩
          exfalso
          apply hne
          rw [List.filter_eq_nil_iff]
          intro k hk
          simp [hall k hk]
      · rename_i h2
        rw [List.isEmpty_iff] at h
        have hnil : List.filter (fun k => decide (k ∉ cols)) sk = [] := by
          rcases hfil : List.filter (fun k => decide (k ∉ cols)) sk with - | ⟨a, l⟩
          · rfl
          · rw [hfil] at h2; simp at h2
        constructor
        · intro _
          refine ⟨h, fun k hk => ?_⟩
          have := List.filter_eq_nil_iff.mp hnil k hk
          simpa using this
        · intro _; rfl
  · intro df keys
    rw [computeDuplicates]
    split
    · rename_i h
      rw [List.isEmpty_iff] at h
      simp [h]
    · rename_i h
      rw [List.isEmpty_iff] at h
      split
      · rename_i h2
        rw [List.isEmpty_iff] at h2
        simp [h, h2]
      · rename_i h2
        rw [List.isEmpty_iff] at h2
        split
        · rename_i h3
          rw [Bool.not_eq_true'] at h3
          constructor
          · rintro ⟨p, hp⟩; cases hp
          · rintro (hrows | ⟨-, hall⟩)
            · exact absurd hrows h
            · have hal : keys.all (fun k => decide (k ∈ df.cols)) = true :=
                List.all_eq_true.mpr fun k hk => decide_eq_true (hall k hk)
              rw [hal] at h3
              cases h3
        · rename_i h3
          have hall : ∀ k ∈ keys, k ∈ df.cols := by
            have h3' : keys.all (fun k => decide (k ∈ df.cols)) = true := by
              rcases hb : keys.all (fun k => decide (k ∈ df.cols))
              · exfalso; apply h3; rw [hb]; rfl
              · rfl
            intro k hk
            have := List.all_eq_true.mp h3' k hk
            simpa using this
          split
          · exact iff_of_true ⟨_, rfl⟩ (Or.inr ⟨h2, hall⟩)
          · exact iff_of_true ⟨_, rfl⟩ (Or.inr ⟨h2, hall⟩)

/-- C8: an empty input table yields empty grouper and differ outputs with
no error, for every key list (src/app.py lines 105-106). -/
theorem C8_theorem (cols keys : List String) :
    computeDuplicates { cols := cols, rows := [] } keys = .ok ([], []) := rfl

/-- C9: build_query_from_input fails on an input whose trimmed form is
empty, returns the trimmed input verbatim when its lowercase form starts
with select or with, and otherwise wraps the trimmed input in a SELECT
star FROM query (src/app.py lines 138-145). -/
theorem C9_theorem (source : List Char) :
    (pyStrip source = [] →
      buildQueryFromInput source =
        .error "Informe uma tabela ou uma consulta SQL válida.") ∧
    (pyStrip source ≠ [] →
      (startsWithB ((pyStrip source).map Char.toLower) "select".data ||
       startsWithB ((pyStrip source).map Char.toLower) "with".data) = true →
      buildQueryFromInput source = .ok (pyStrip source)) ∧
    (pyStrip source ≠ [] →
      (startsWithB ((pyStrip source).map Char.toLower) "select".data ||
       startsWithB ((pyStrip source).map Char.toLower) "with".data) = false →
      buildQueryFromInput source =
        .ok ("SELECT * FROM ".data ++ pyStrip source)) := by
  refine ⟨?_, ?_, ?_⟩
  · intro h1
    rw [buildQueryFromInput]
    simp [h1]
  · intro h1 h2
    rw [buildQueryFromInput]
    simp only [List.isEmpty_iff, h1, if_false, h2, if_true]
  · intro h1 h2
    rw [buildQueryFromInput]
    simp [List.isEmpty_iff, h1, h2]

/-- C9 witness: a bare table name is trimmed and wrapped in a query. -/
theorem C9_witness :
    buildQueryFromInput queryInputFlights = .ok ("SELECT * FROM flights".data) := by
  have h := (C9_theorem queryInputFlights).2.2 (by decide) (by decide)
  exact h.trans (by rfl)

/-- C10: every record of the difference summary carries a key tuple whose
length equals the number of key columns, also when there is exactly one
key column (the scalar group key of pandas is wrapped into a one-tuple at
src/app.py lines 123-124; the embedding makes every key a tuple). -/
theorem C10_theorem (df : DataFrame) (keys : List String) (rec : DiffRecord)
    (hrec : rec ∈ differSummary df keys) :
    rec.key.length = keys.length := by
  rw [differSummary] at hrec
  rcases List.mem_map.mp hrec with ⟨k, hk, rfl⟩
  rw [groupKeyList] at hk
  have hk2 := (mem_firstDedupAux k _ _).mp hk
  rcases List.mem_filter.mp hk2.1 with ⟨hmem, -⟩
  rcases List.mem_map.mp hmem with ⟨r, -, rfl⟩
  simp [diffRecordFor, projRow]

/-- C10 witness: the scenario record of the Safra Air group has a key of
length five, one entry per key column. -/
theorem C10_witness :
    (DiffRecord.mk safraKey 2 ["status"]).key.length = flightKeys.length :=
  C10_theorem scenarioDf flightKeys _ (by decide)

/-- C3 counterexample: in a duplicate group whose non-key column v holds
one null and one non-null value, the set of distinct values in the sense
of the claim (nulls counted, two nulls equal) has two elements, yet the
emitted record lists no difference column, because Series.nunique drops
nulls before counting. -/
theorem C3_counterexample :
    differSummary nullDiffDf ["k"] =
      [{ key := [Scalar.str "A"], duplicate_count := 2,
         difference_columns := [] }] ∧
    1 < specDistinctCount ((nullDiffDf.rows.filter
      (fun r => decide (projRow nullDiffDf.cols ["k"] r = [Scalar.str "A"]))).map
        (colVal nullDiffDf.cols "v")) ∧
    "v" ∈ nonKeyColumns nullDiffDf ["k"] ∧
    "v" ∉ ({ key := [Scalar.str "A"], duplicate_count := 2,
             difference_columns := [] } : DiffRecord).difference_columns :=
  ⟨by rfl, by decide, by decide, by decide⟩

/-- C3 (amended): a non-key column C appears in a group record's
difference_columns iff the group's member rows hold more than one
distinct non-null value of C; null values are not counted, so a group
with one null and one non-null value of C does not differ in C, and a
group holding only nulls for C does not either. -/
theorem C3_theorem (df : DataFrame) (keys : List String) (rec : DiffRecord)
    (hrec : rec ∈ differSummary df keys) (c : String) :
    c ∈ rec.difference_columns ↔
      c ∈ nonKeyColumns df keys ∧
      1 < nunique ((df.rows.filter
        (fun r => decide (projRow df.cols keys r = rec.key))).map
          (colVal df.cols c)) := by
  rw [differSummary] at hrec
  rcases List.mem_map.mp hrec with ⟨k, hk, rfl⟩
  have hgr : groupRows df keys k
      = df.rows.filter (fun r => decide (projRow df.cols keys r = k)) :=
    groupRows_eq_input_filter df keys hk
  show c ∈ (nonKeyColumns df keys).filter _ ↔ _
  rw [List.mem_filter, hgr]
  simp [diffRecordFor]

/-- C3 witness: in the scenario the status column of the Safra Air group
is listed exactly because its two non-null values differ. -/
theorem C3_witness :
    "status" ∈ (DiffRecord.mk safraKey 2 ["status"]).difference_columns ↔
      "status" ∈ nonKeyColumns scenarioDf flightKeys ∧
      1 < nunique ((scenarioDf.rows.filter
        (fun r => decide (projRow scenarioDf.cols flightKeys r = safraKey))).map
          (colVal scenarioDf.cols "status")) :=
  C3_theorem scenarioDf flightKeys _ (by decide) "status"

/-- C5 counterexample: two rows duplicated on a null key survive the
grouper (null equals null in duplicated), yet the differ emits no record
for their group, because groupby drops groups whose key holds a null; the
claim instead demanded one record per group including null-keyed ones. -/
theorem C5_counterexample :
    computeDuplicates nullKeyDf ["k"] =
      .ok ([{ row := [Scalar.null, Scalar.str "a"], ordem := none },
            { row := [Scalar.null, Scalar.str "a"], ordem := none }], []) ∧
    ([{ row := [Scalar.null, Scalar.str "a"], ordem := none },
      { row := [Scalar.null, Scalar.str "a"], ordem := none }] : List AnnotatedRow)
      ≠ [] :=
  ⟨by rfl, by decide⟩

/-- C5 (amended): the differ emits exactly one record per distinct group
whose key holds no null value, with duplicate_count the group's member
count in the input table; records are strictly ascending in the key
order, which on the key-sorted grouper output coincides with first
appearance; groups whose key holds a null are dropped. -/
theorem C5_theorem (df : DataFrame) (keys : List String) :
    (∀ k : List Scalar,
      (∃ rec ∈ differSummary df keys, rec.key = k) ↔
        (hasNullKey k = false ∧
          2 ≤ df.rows.countP (fun r => decide (projRow df.cols keys r = k)))) ∧
    (∀ rec ∈ differSummary df keys,
      rec.duplicate_count =
        df.rows.countP (fun r => decide (projRow df.cols keys r = rec.key))) ∧
    (differSummary df keys).Pairwise
      (fun r₁ r₂ => keyLt r₁.key r₂.key = true) := by
  refine ⟨?_, ?_, ?_⟩
  · intro k
    rw [← mem_groupKeyList df keys k]
    constructor
    · rintro ⟨rec, hrec, rfl⟩
      rw [differSummary] at hrec
      rcases List.mem_map.mp hrec with ⟨k', hk', rfl⟩
      exact hk'
    · intro hk
      exact ⟨diffRecordFor df keys k,
        List.mem_map_of_mem _ hk, rfl⟩
  · intro rec hrec
    rw [differSummary] at hrec
    rcases List.mem_map.mp hrec with ⟨k, hk, rfl⟩
    show (groupRows df keys k).length = _
    rw [groupRows, groupRows_eq_input_filter df keys hk]
    simp only [diffRecordFor]
    rw [List.countP_eq_length_filter]
  · rw [differSummary]
    exact (groupKeyList_pairwise df keys).map _ (fun k₁ k₂ h => h)

/-- C5 witness: the scenario summary holds a record for the Safra Air
group key, with duplicate_count the number of matching input rows. -/
theorem C5_witness :
    (∃ rec ∈ differSummary scenarioDf flightKeys, rec.key = safraKey) ∧
    (DiffRecord.mk safraKey 2 ["status"]).duplicate_count =
      scenarioDf.rows.countP
        (fun r => decide (projRow scenarioDf.cols flightKeys r = safraKey)) := by
  constructor
  · exact ((C5_theorem scenarioDf flightKeys).1 safraKey).mpr ⟨by decide, by decide⟩
  · exact (C5_theorem scenarioDf flightKeys).2.1 _ (by decide)

/-- C7 counterexample: the null-keyed group of size two is present in the
grouper output, but its rows carry no ordinal at all (groupby dropna
leaves their cumcount missing), so the ordinals are not the claimed set
containing 1 and 2. -/
theorem C7_counterexample :
    computeDuplicates nullKeyDf ["k"] =
      .ok ([{ row := [Scalar.null, Scalar.str "a"], ordem := none },
            { row := [Scalar.null, Scalar.str "a"], ordem := none }], []) ∧
    (grouperRows nullKeyDf ["k"]).map AnnotatedRow.ordem = [none, none] ∧
    ([none, none] : List (Option Nat)) ≠ [some 1, some 2] :=
  ⟨by rfl, by rfl, by decide⟩

/-- C7 (amended): within every duplicate group whose key holds no null
value the ordinals read 1..N in output order with N the group size; rows
of a null-keyed group instead carry no ordinal. -/
theorem C7_theorem (df : DataFrame) (keys : List String) (k : List Scalar)
    (hk : hasNullKey k = false) :
    ((grouperRows df keys).filter
        (fun a => decide (projRow df.cols keys a.row = k))).map AnnotatedRow.ordem
      = (List.range ((grouperRows df keys).filter
          (fun a => decide (projRow df.cols keys a.row = k))).length).map
          (fun i => some (i + 1)) := by
  rw [grouperRows]
  have hlen : ((annotateAux (projRow df.cols keys) [] (sortDup df keys)).filter
      (fun a => decide (projRow df.cols keys a.row = k))).length
      = ((sortDup df keys).filter
          (fun r => decide (projRow df.cols keys r = k))).length := by
    have hcong := congrArg List.length
      (annotateAux_filter_ordinals (projRow df.cols keys) k hk (sortDup df keys) [])
    simpa using hcong
  rw [annotateAux_filter_ordinals (projRow df.cols keys) k hk (sortDup df keys) [],
    hlen]
  apply List.map_congr_left
  intro i _
  simp

/-- C7 witness: the Safra Air group of the scenario carries ordinals in
ascending positional order. -/
theorem C7_witness :
    ((grouperRows scenarioDf flightKeys).filter
        (fun a => decide (projRow scenarioDf.cols flightKeys a.row = safraKey))).map
        AnnotatedRow.ordem
      = (List.range ((grouperRows scenarioDf flightKeys).filter
          (fun a => decide (projRow scenarioDf.cols flightKeys a.row
            = safraKey))).length).map (fun i => some (i + 1)) :=
  C7_theorem scenarioDf flightKeys safraKey (by decide)

theorem perm_cons_eraseOne {r : List Scalar} :
    ∀ {l : List (List Scalar)}, r ∈ l → l.Perm (r :: eraseOne l r) := by
  intro l
  induction l with
  | nil => intro h; cases h
  | cons x xs ih =>
    intro h
    rw [eraseOne]
    by_cases hx : x = r
    · rw [if_pos hx, hx]
    · rw [if_neg hx]
      have hr : r ∈ xs := by
        rcases List.mem_cons.mp h with rfl | h2
        · exact absurd rfl hx
        · exact h2
      exact ((ih hr).cons x).trans (List.Perm.swap r x (eraseOne xs r))

/-- C6: a row value of the input table appears in the grouper output iff
the table holds, besides one occurrence of that row, another row with the
identical key projection (null key values comparing equal); and when all
key projections are pairwise distinct both outputs are empty. -/
theorem C6_theorem :
    (∀ (df : DataFrame) (keys : List String) (r : List Scalar), r ∈ df.rows →
      ((∃ a ∈ grouperRows df keys, a.row = r) ↔
        ∃ r2 ∈ eraseOne df.rows r,
          projRow df.cols keys r2 = projRow df.cols keys r)) ∧
    (∀ (df : DataFrame) (keys : List String),
      df.rows.Pairwise
        (fun r₁ r₂ => projRow df.cols keys r₁ ≠ projRow df.cols keys r₂) →
      grouperRows df keys = [] ∧ differSummary df keys = []) := by
  constructor
  · intro df keys r hr
    have hperm := perm_cons_eraseOne hr
    have hcount : df.rows.countP
          (fun r2 => decide (projRow df.cols keys r2 = projRow df.cols keys r))
        = (eraseOne df.rows r).countP
            (fun r2 => decide (projRow df.cols keys r2 = projRow df.cols keys r))
          + 1 := by
      rw [hperm.countP_eq, List.countP_cons]
      have hd : decide (projRow df.cols keys r = projRow df.cols keys r) = true :=
        decide_eq_true rfl
      rw [hd, if_pos rfl]
    constructor
    · rintro ⟨a, ha, rfl⟩
      have hmem : a.row ∈ (annotateAux (projRow df.cols keys) []
          (sortDup df keys)).map AnnotatedRow.row :=
        List.mem_map_of_mem _ ha
      rw [annotateAux_map_row] at hmem
      have hdup : a.row ∈ dupFilter df keys :=
        (List.perm_insertionSort _ _).mem_iff.mp hmem
      rcases List.mem_filter.mp hdup with ⟨-, hc⟩
      rw [decide_eq_true_eq] at hc
      have hpos : 0 < (eraseOne df.rows a.row).countP
          (fun r2 => decide (projRow df.cols keys r2 = projRow df.cols keys a.row)) := by
        omega
      rcases List.countP_pos_iff.mp hpos with ⟨r2, hr2, hp⟩
      exact ⟨r2, hr2, by simpa using hp⟩
    · rintro ⟨r2, hr2, hp⟩
      have hpos : 0 < (eraseOne df.rows r).countP
          (fun r2 => decide (projRow df.cols keys r2 = projRow df.cols keys r)) :=
        List.countP_pos_iff.mpr ⟨r2, hr2, by simpa using hp⟩
      have hdup : r ∈ dupFilter df keys := by
        rw [dupFilter, List.mem_filter]
        exact ⟨hr, by rw [decide_eq_true_eq]; omega⟩
      have hsorted : r ∈ sortDup df keys :=
        (List.perm_insertionSort _ _).mem_iff.mpr hdup
      have hmem : r ∈ (annotateAux (projRow df.cols keys) []
          (sortDup df keys)).map AnnotatedRow.row := by
        rw [annotateAux_map_row]; exact hsorted
      rcases List.mem_map.mp hmem with ⟨a, ha, haeq⟩
      exact ⟨a, ha, haeq⟩
  · intro df keys hpair
    have hnd : df.rows.Nodup :=
      hpair.imp (fun h heq => h (congrArg _ heq))
    have hdup : dupFilter df keys = [] := by
      rw [dupFilter, List.filter_eq_nil_iff]
      intro r hr
      simp only [decide_eq_true_eq, not_le]
      have hperm := perm_cons_eraseOne hr
      rw [hperm.countP_eq, List.countP_cons]
      have hzero : (eraseOne df.rows r).countP
          (fun r2 => decide (projRow df.cols keys r2 = projRow df.cols keys r)) = 0 := by
        rw [List.countP_eq_zero]
        intro r2 hr2
        have hmem : r2 ∈ df.rows := hperm.mem_iff.mpr (List.mem_cons_of_mem _ hr2)
        have hne : r2 ≠ r := by
          intro heq
          subst heq
          have := hperm.nodup_iff.mp hnd
          rcases List.nodup_cons.mp this with ⟨hnot, -⟩
          exact hnot hr2
        have hsym : Symmetric (fun r₁ r₂ : List Scalar =>
            projRow df.cols keys r₁ ≠ projRow df.cols keys r₂) := by
          intro a b h heq
          exact h heq.symm
        have hproj : projRow df.cols keys r2 ≠ projRow df.cols keys r :=
          List.Pairwise.forall hsym hpair hmem hr hne
        simpa using hproj
      rw [hzero]
      have hd : decide (projRow df.cols keys r = projRow df.cols keys r) = true :=
        decide_eq_true rfl
      rw [hd, if_pos rfl]
      omega
    refine ⟨?_, ?_⟩
    · rw [grouperRows, sortDup, hdup]
      rfl
    · rw [differSummary, groupKeyList, sortDup, hdup]
      rfl

/-- C6 witness: in the scenario the No Horário row appears in the grouper
output because the Atrasado row shares its key projection, and a two-row
table with distinct keys yields empty outputs. -/
theorem C6_witness :
    (∃ a ∈ grouperRows scenarioDf flightKeys, a.row = rNoHorario) ∧
    (grouperRows { cols := ["k"], rows := [[Scalar.str "u"], [Scalar.str "w"]] }
        ["k"] = [] ∧
     differSummary { cols := ["k"], rows := [[Scalar.str "u"], [Scalar.str "w"]] }
        ["k"] = []) := by
  constructor
  · exact (C6_theorem.1 scenarioDf flightKeys rNoHorario (by decide)).mpr
      ⟨rAtrasado, by decide, by decide⟩
  · exact C6_theorem.2 _ ["k"] (by decide)

/-- C2 counterexample: permuting the two tied rows of a duplicate group
permutes their ordinals: the No Horário row receives ordinal 1 in one
input order and ordinal 2 in the other, so ordinals per logical row are
not invariant under permutation of the input rows. -/
theorem C2_counterexample :
    permDfB.rows.Perm permDfA.rows ∧
    computeDuplicates permDfA ["k1", "k2"] =
      .ok ([{ row := rPermNH, ordem := some 1 },
            { row := rPermAt, ordem := some 2 }],
        [{ key := [Scalar.str "X", Scalar.str "1"], duplicate_count := 2,
           difference_columns := ["status"] }]) ∧
    computeDuplicates permDfB ["k1", "k2"] =
      .ok ([{ row := rPermAt, ordem := some 1 },
            { row := rPermNH, ordem := some 2 }],
        [{ key := [Scalar.str "X", Scalar.str "1"], duplicate_count := 2,
           difference_columns := ["status"] }]) ∧
    ({ row := rPermNH, ordem := some 1 } : AnnotatedRow) ∈
      [({ row := rPermNH, ordem := some 1 } : AnnotatedRow),
       { row := rPermAt, ordem := some 2 }] ∧
    ({ row := rPermNH, ordem := some 1 } : AnnotatedRow) ∉
      [({ row := rPermAt, ordem := some 1 } : AnnotatedRow),
       { row := rPermNH, ordem := some 2 }] :=
  ⟨by decide, by rfl, by rfl, by decide, by decide⟩

/-- C2 (amended): the transform is a pure function, so two runs on the
same input agree; permuting the input rows leaves the difference summary
unchanged (same records in the same order), while the ordinal a logical
row receives may change with the input order of its tied group members. -/
theorem C2_theorem (df₁ df₂ : DataFrame) (keys : List String)
    (hcols : df₁.cols = df₂.cols) (hrows : df₁.rows.Perm df₂.rows) :
    (computeDuplicates df₁ keys).map Prod.snd
      = (computeDuplicates df₂ keys).map Prod.snd := by
  obtain ⟨cols, rows₁⟩ := df₁
  obtain ⟨cols₂, rows₂⟩ := df₂
  dsimp only at hcols hrows
  subst hcols
  rw [computeDuplicates, computeDuplicates]
  dsimp only
  by_cases h1 : rows₁.isEmpty
  · have h2 : rows₂.isEmpty = true := by
      rw [List.isEmpty_iff] at h1 ⊢
      subst h1
      exact hrows.symm.eq_nil
    rw [if_pos h1, if_pos h2]
  · have h2 : ¬ rows₂.isEmpty = true := by
      rw [List.isEmpty_iff] at h1 ⊢
      intro hnil
      subst hnil
      exact h1 hrows.eq_nil
    rw [if_neg h1, if_neg h2]
    by_cases hk : keys.isEmpty
    · rw [if_pos hk, if_pos hk]
    · rw [if_neg hk, if_neg hk]
      by_cases hall : (!(keys.all fun k => decide (k ∈ cols))) = true
      · rw [if_pos hall, if_pos hall]
      · rw [if_neg hall, if_neg hall]
        have hdperm := dupFilter_perm cols rows₁ rows₂ keys hrows
        by_cases h4 : (dupFilter ⟨cols, rows₁⟩ keys).isEmpty
        · have h5 : (dupFilter ⟨cols, rows₂⟩ keys).isEmpty = true := by
            rw [List.isEmpty_iff] at h4 ⊢
            rw [h4] at hdperm
            exact hdperm.symm.eq_nil
          rw [if_pos h4, if_pos h5]
        · have h5 : ¬ (dupFilter ⟨cols, rows₂⟩ keys).isEmpty = true := by
            rw [List.isEmpty_iff] at h4 ⊢
            intro hnil
            rw [hnil] at hdperm
            exact h4 hdperm.eq_nil
          rw [if_neg h4, if_neg h5]
          show Except.ok (differSummary ⟨cols, rows₁⟩ keys)
            = Except.ok (differSummary ⟨cols, rows₂⟩ keys)
          rw [differSummary_perm cols rows₁ rows₂ keys hrows]

/-- C2 witness: the difference summaries of the two permuted concrete
tables coincide. -/
theorem C2_witness :
    (computeDuplicates permDfA ["k1", "k2"]).map Prod.snd
      = (computeDuplicates permDfB ["k1", "k2"]).map Prod.snd :=
  C2_theorem permDfA permDfB ["k1", "k2"] rfl (by decide)
